import Mathlib

/-!
Verification of the robobrowser navigation engine (src/robobrowser/browser.py)
against its natural-language specification.

The development shallowly embeds the module: Python lists become `List`,
Python ints become `Int` (with Python slice/index semantics made explicit),
Python dicts become insertion-ordered association lists with overwrite,
fallible Python code returns `Except`, and the external collaborators the
module calls into (pycurl transport, zlib, BeautifulSoup, urljoin, the Form
class) are modelled from the specification where noted.
-/

namespace Robo

instance {ε α : Type} [DecidableEq ε] [DecidableEq α] : DecidableEq (Except ε α) := fun a b =>
  match a, b with
  | .ok x, .ok y => if h : x = y then .isTrue (by simp [h]) else .isFalse (by simp [h])
  | .error x, .error y => if h : x = y then .isTrue (by simp [h]) else .isFalse (by simp [h])
  | .ok _, .error _ => .isFalse (by simp)
  | .error _, .ok _ => .isFalse (by simp)

/-! ## Python primitives

Explicit embeddings of the Python list-slice, list-index, string and dict
operations the source uses, with Python's semantics (negative indices count
from the end, out-of-range slices clamp, dict assignment overwrites the
existing key in place). -/

/-- Python `l[:k]`: a negative stop counts from the end; the result clamps to
the available elements. -/
def pySliceTo {α : Type} (l : List α) (k : Int) : List α :=
  if k < 0 then l.take ((l.length : Int) + k).toNat else l.take k.toNat

/-- Python `l[k:]`: a negative start counts from the end; the result clamps to
the available elements. -/
def pySliceFrom {α : Type} (l : List α) (k : Int) : List α :=
  if k < 0 then l.drop ((l.length : Int) + k).toNat else l.drop k.toNat

/-- Python `l[i]` as a partial operation: `none` models `IndexError`.
A negative index counts from the end of the list. -/
def pyIndex {α : Type} (l : List α) (i : Int) : Option α :=
  if 0 ≤ i then l[i.toNat]?
  else if 0 ≤ (l.length : Int) + i then l[((l.length : Int) + i).toNat]?
  else none

/-- Python `x or y` on strings: the left operand if it is truthy (non-empty),
else the right operand. -/
def pyOr (x y : String) : String :=
  if x = "" then y else x

/-- Python `s.split("\r\n")` on a character list: split on every
non-overlapping occurrence of the two-character separator, scanning left to
right.  (Implemented structurally so that concrete inputs evaluate inside the
kernel.) -/
def splitCRLF : List Char → List (List Char)
  | [] => [[]]
  | '\r' :: '\n' :: xs => [] :: splitCRLF xs
  | x :: xs =>
    match splitCRLF xs with
    | [] => [[x]]
    | t :: ts => (x :: t) :: ts

/-- Python `headers.split("\r\n")`. -/
def pySplitCRLF (s : String) : List String :=
  (splitCRLF s.toList).map (fun l => String.mk l)

/-- Python `line.split(":", 1)`: one part when the line has no colon,
otherwise the text before the first colon and everything after it. -/
def pySplitColon1 (line : String) : List String :=
  let pre := line.toList.takeWhile (fun c => c ≠ ':')
  match line.toList.dropWhile (fun c => c ≠ ':') with
  | [] => [String.mk pre]
  | _ :: post => [String.mk pre, String.mk post]

/-- Python `":" in line`. -/
def pyHasColon (line : String) : Bool :=
  line.toList.contains ':'

/-- ASCII lower-casing of one character, as Python `str.lower` acts on the
ASCII header names the transport produces. -/
def asciiLower (c : Char) : Char :=
  if 'A' ≤ c ∧ c ≤ 'Z' then Char.ofNat (c.toNat + 32) else c

/-- Python `name.lower()` (ASCII range). -/
def pyLower (s : String) : String :=
  String.mk (s.toList.map asciiLower)

/-- ASCII upper-casing of one character, as Python `str.upper` acts on the
ASCII method names a form carries. -/
def asciiUpper (c : Char) : Char :=
  if 'a' ≤ c ∧ c ≤ 'z' then Char.ofNat (c.toNat - 32) else c

/-- Python `method.upper()` (ASCII range). -/
def pyUpper (s : String) : String :=
  String.mk (s.toList.map asciiUpper)

/-- Python `value.strip()`: remove whitespace from both ends. -/
def pyStrip (s : String) : String :=
  String.mk (((s.toList.dropWhile Char.isWhitespace).reverse.dropWhile Char.isWhitespace).reverse)

/-- Python dict assignment `d[k] = v` on an insertion-ordered association
list: overwrite the existing entry for `k` in place, else append. -/
def dictSet : List (String × String) → String → String → List (String × String)
  | [], k, v => [(k, v)]
  | p :: rest, k, v => if p.1 == k then (k, v) :: rest else p :: dictSet rest k v

/-- Python `d.get(k)` / `d[k]` lookup. -/
def dictGet? : List (String × String) → String → Option String
  | [], _ => none
  | p :: rest, k => if p.1 == k then some p.2 else dictGet? rest k

/-- Python `d.get(k, default)`. -/
def dictGetD (d : List (String × String)) (k dflt : String) : String :=
  (dictGet? d k).getD dflt

/-! ## Error model

`browser.py` raises a single exception class `robobrowser.exceptions.RoboError`
with distinguishing messages; the specification's error taxonomy names the
kinds.  `RoboErr` models the RoboError messages; `PyErr` adds the Python-level
exceptions the module can raise (`NameError` from an undefined global,
`zlib.error` from the decompression library). -/

/-- RoboError kinds, distinguished in the source by message: `'No state'`,
`'Index out of range'`, `'Not tracking history'`, and the missing-href error
of `follow_link`. -/
inductive RoboErr
  | noState
  | indexOutOfRange
  | historyDisabled
  | missingAttribute
deriving DecidableEq, Repr

/-- Python-level exceptions reachable from the embedded code paths. -/
inductive PyErr
  | nameError
  | zlibError
  | robo (e : RoboErr)
deriving DecidableEq, Repr

/-! ## Content-encoding model (zlib, DeflateDecoder, _get_decoder)

The zlib library is an external collaborator; its behaviour is modelled from
the specification (section 4.1): a body is either plain, zlib-wrapped DEFLATE,
raw DEFLATE without the zlib wrapper, or gzip-framed, and each decompressor
mode inflates exactly the matching framing, raising a stream-format error
(`zlib.error`) on every mismatch. -/

/-- A response body, with its compression framing made explicit. -/
inductive Payload
  | plain (data : List Nat)
  | zlibWrapped (data : List Nat)
  | rawDeflate (data : List Nat)
  | gzipWrapped (data : List Nat)
deriving DecidableEq, Repr

/-- The three decompressor modes the source constructs:
`zlib.decompressobj()` (standard, zlib-wrapped input),
`zlib.decompressobj(-zlib.MAX_WBITS)` (raw inflate, no zlib header), and
`zlib.decompressobj(16 + zlib.MAX_WBITS)` (gzip framing). -/
inductive ZMode
  | standard
  | raw
  | gzipFramed
deriving DecidableEq, Repr

/-- Modelled from the spec: zlib decompression (external library).  Each
decompressor mode recovers the data of exactly the matching framing; every
mismatch raises `zlib.error`, the stream-format error of spec section 4.1. -/
def zlibDecompress : ZMode → Payload → Except PyErr (List Nat)
  | .standard, .zlibWrapped d => .ok d
  | .raw, .rawDeflate d => .ok d
  | .gzipFramed, .gzipWrapped d => .ok d
  | _, _ => .error .zlibError

/-- browser.py line 28 evaluates the global name `binary_type`.  The module
never defines it and none of its imported names (`re`, `bs4`, helper modules,
`urlparse`, `Form`, `RoboHTTPAdapter`, `retry`, `pycurl`, `curl`, `io`,
`urlencode`, `zlib`) bind `binary_type`, so the lookup raises `NameError` at
call time.  (`binary_type` is `six.binary_type`, i.e. `bytes`; the `six`
shim was dropped without fixing this use.) -/
def binary_type : Except PyErr (List Nat) :=
  .error .nameError

/-- The attribute state of a constructed `DeflateDecoder` (lines 26-29). -/
structure DeflateDecoderState where
  first_try : Bool
  data : List Nat
  obj : ZMode
deriving DecidableEq, Repr

/-- `DeflateDecoder.__init__` (lines 26-29): `_first_try = True`,
`_data = binary_type()`, `_obj = zlib.decompressobj()`.  Evaluating
`binary_type` raises `NameError`, so construction always fails. -/
def DeflateDecoder.init : Except PyErr DeflateDecoderState :=
  match binary_type with
  | .error e => .error e
  | .ok d => .ok { first_try := true, data := d, obj := .standard }

/-- The intended `DeflateDecoder.decompress` (lines 34-47, with
`binary_type = bytes` as in the `six`/`urllib3` code this class was copied
from), specialized to the repository's single use: `_do_request` (line 112)
calls `decoder.decompress(self.payload)` exactly once on the whole body, with
the buffer initially empty.  Try the standard zlib-wrapped inflate; on
`zlib.error` on this first attempt, switch to a raw-inflate decompressor and
retry once against the buffered input.  The boolean records whether the
raw-inflate fallback was used. -/
def deflateDecompressOnce (p : Payload) : Except PyErr (List Nat × Bool) :=
  match zlibDecompress .standard p with
  | .ok out => .ok (out, false)
  | .error _ =>
    match zlibDecompress .raw p with
    | .ok out => .ok (out, true)
    | .error e => .error e

/-- A decoder returned by `_get_decoder`. -/
inductive Decoder
  | gzipObj
  | deflateObj (st : DeflateDecoderState)
deriving DecidableEq, Repr

/-- `_get_decoder` (lines 50-54): a gzip-framed decompressobj for `'gzip'`,
else a fresh `DeflateDecoder` (whose construction raises `NameError`). -/
def _get_decoder (mode : String) : Except PyErr Decoder :=
  if mode = "gzip" then .ok .gzipObj
  else DeflateDecoder.init.map Decoder.deflateObj

/-- `decoder.decompress(payload)` for either decoder kind.  The
`DeflateDecoder` branch is dead code in the repository (its construction
fails); it is given the intended single-call semantics. -/
def Decoder.decompress : Decoder → Payload → Except PyErr (List Nat)
  | .gzipObj, p => zlibDecompress .gzipFramed p
  | .deflateObj _, p => (deflateDecompressOnce p).map Prod.fst

/-! ## Transport (`RoboCurl`) -/

/-- The HTTP verb a dispatch uses: `session.get` or `session.post`. -/
inductive Verb
  | get
  | post
deriving DecidableEq, Repr

/-- A request handed to the transport: the verb, the URL passed to
`pycurl.URL`, and the second positional argument of the session call (the
`headers` parameter of `get`, into which `submit_form` passes the form
params dict; empty for plain `open`). -/
structure Request where
  verb : Verb
  url : String
  data : List (String × String)
deriving DecidableEq, Repr

/-- What the network returns for one performed request: the raw header block
accumulated by the HEADERFUNCTION callback, the body bytes written to the
buffer, and the effective URL reported by the handle after redirects. -/
structure NetResponse where
  raw_hdr : String
  body : Payload
  eff_url : String
deriving Repr

/-- The network, abstracted as a function from requests to wire responses. -/
abbrev Net := Request → NetResponse

/-- The mutable session state of a `RoboCurl` transport: the accumulated
header buffer, the parsed header dict, the (decoded) payload, the captured
status line, and the effective URL of the last request (the `url` property,
read from the curl handle). -/
structure RoboCurl where
  hdr : String := ""
  headers : List (String × String) := []
  payload : Payload := .plain []
  status_line : String := ""
  url : String := ""
deriving DecidableEq, Repr

/-- One line of the `parse_headers` loop body (lines 118-125, the part after
the first-line bookkeeping): a line without a colon is skipped; otherwise the
line is split on its first colon, the name lowercased and the value stripped,
and the entry overwrites any earlier entry with the same name. -/
def hdrStep (d : List (String × String)) (line : String) : List (String × String) :=
  if pyHasColon line then
    match pySplitColon1 line with
    | [name, value] => dictSet d (pyLower name) (pyStrip value)
    | _ => d
  else d

/-- `RoboCurl.parse_headers` (lines 115-126): split the raw block on CRLF;
the `first` flag stores the first line into `self.status_line`; every line
(the first included — the loop does not `continue` after the status line)
then goes through the colon split into the dict.  Returns the pair
(status line, header dict). -/
def RoboCurl.parse_headers (headers : String) : String × List (String × String) :=
  let lines := pySplitCRLF headers
  (lines.headD "", lines.foldl hdrStep [])

/-- `RoboCurl._do_request` (lines 86-113): clear the header and dict buffers,
perform the request (the network fills `hdr`, the body buffer and the
effective URL), parse the headers (which also captures the status line), and
if the declared content-encoding is gzip or deflate, decode the payload with
`_get_decoder`'s decoder — the deflate path fails with `NameError` because
`DeflateDecoder` cannot be constructed. -/
def RoboCurl._do_request (s : RoboCurl) (req : Request) (net : Net) : Except PyErr RoboCurl :=
  let s := { s with hdr := "", headers := [] }
  let r := net req
  let s := { s with payload := r.body, hdr := r.raw_hdr, url := r.eff_url }
  let ph := RoboCurl.parse_headers s.hdr
  let s := { s with status_line := ph.1, headers := ph.2 }
  let encoding := dictGetD s.headers "content-encoding" ""
  if encoding = "gzip" ∨ encoding = "deflate" then
    match _get_decoder encoding with
    | .error e => .error e
    | .ok dec =>
      match dec.decompress s.payload with
      | .error e => .error e
      | .ok out => .ok { s with payload := .plain out }
  else .ok s

/-- `RoboCurl.get` (lines 128-130): a GET through `_do_request`; the second
positional argument is the custom-header parameter. -/
def RoboCurl.get (s : RoboCurl) (url : String) (hdrs : List (String × String)) (net : Net) :
    Except PyErr RoboCurl :=
  RoboCurl._do_request s { verb := .get, url := url, data := hdrs } net

/-- `RoboCurl.post` (lines 132-135): a POST with url-encoded params through
`_do_request`. -/
def RoboCurl.post (s : RoboCurl) (url : String) (params : List (String × String)) (net : Net) :
    Except PyErr RoboCurl :=
  RoboCurl._do_request s { verb := .post, url := url, data := params } net

/-! ## Response and page state (`RoboResponse`, `RoboState`) -/

/-- `RoboResponse` (lines 151-156): an immutable snapshot of a completed
request, built from the session.  Note line 155 assigns the empty string to
`status_line` instead of copying `session.status_line`. -/
structure RoboResponse where
  content : Payload
  url : String
  status_line : String
  headers : List (String × String)
deriving DecidableEq, Repr

/-- `RoboResponse.__init__(self, session)` (lines 152-156). -/
def RoboResponse.ofSession (s : RoboCurl) : RoboResponse :=
  { content := s.payload, url := s.url, status_line := "", headers := s.headers }

/-- A parsed-document handle.  Modelled from the spec: the external parser
produces a handle determined by the parsed bytes and the parser identifier
(spec section 4.2); the core only owns when parsing happens. -/
structure Soup where
  content : Payload
  features : Option String
deriving DecidableEq, Repr

/-- Modelled from the spec: one invocation of the external HTML parser on
the response content with the configured parser identifier. -/
def BeautifulSoup (content : Payload) (features : Option String) : Soup :=
  { content := content, features := features }

/-- `RoboState` (lines 159-169): wraps a response; `url` is the response's
URL and `_parsed` is the lazy-parse cache, absent until the first access.
(The `browser` back-reference of the source is used only to read the
configured parser identifier, which the accessor below takes explicitly,
and is omitted to keep the data model well-founded.) -/
structure RoboState where
  response : RoboResponse
  url : String
  _parsed : Option Soup
deriving DecidableEq, Repr

/-- `RoboState.__init__(self, browser, response)` (lines 165-169). -/
def RoboState.ofResponse (response : RoboResponse) : RoboState :=
  { response := response, url := response.url, _parsed := none }

/-- The `parsed` property (lines 171-182), instrumented with the number of
parser invocations this access performs: on a cache miss parse
`response.content` with the configured parser and store the handle (one
invocation); on a hit return the cached handle (zero invocations). -/
def RoboState.parsed (parser : Option String) (st : RoboState) : RoboState × Soup × Nat :=
  match st._parsed with
  | some d => (st, d, 0)
  | none =>
    let d := BeautifulSoup st.response.content parser
    ({ st with _parsed := some d }, d, 1)

/-- `k` consecutive accesses of the `parsed` property on one state, returning
the final state and the total number of parser invocations performed. -/
def RoboState.parsedIter (parser : Option String) (st : RoboState) : Nat → RoboState × Nat
  | 0 => (st, 0)
  | Nat.succ k =>
    let r := RoboState.parsed parser st
    let r2 := RoboState.parsedIter parser r.1 k
    (r2.1, r.2.2 + r2.2)

/-! ## History navigator

The history logic of `_update_state` / `_traverse` / the `state` property,
factored over an arbitrary element type exactly as the source manipulates
`self._states` and `self._cursor`. -/

/-- The history portion of the browser state: the ordered state list and the
integer cursor (`-1` when empty). -/
structure HistState (α : Type) where
  states : List α
  cursor : Int
deriving DecidableEq, Repr

namespace History

/-- The push performed by `RoboBrowser._update_state` (lines 331-353):
truncate to `self._states[:self._cursor + 1]`, append the new state,
increment the cursor; then, when a max length is configured (`if
self._maxlen:` — falsy values skip eviction), evict `decrement =
len(states) - maxlen` entries from the front when positive, decrementing the
cursor by the same amount. -/
def push {α : Type} (maxlen : Option Nat) (h : HistState α) (s : α) : HistState α :=
  let states := pySliceTo h.states (h.cursor + 1)
  let states2 := states ++ [s]
  let cursor := h.cursor + 1
  match maxlen with
  | none => { states := states2, cursor := cursor }
  | some m =>
    if m = 0 then { states := states2, cursor := cursor }
    else
      let decrement : Int := (states2.length : Int) - (m : Int)
      if 0 < decrement then
        { states := pySliceFrom states2 decrement, cursor := cursor - decrement }
      else { states := states2, cursor := cursor }

/-- `RoboBrowser._traverse` (lines 355-367): fail with the history-disabled
RoboError when history tracking is off (`if not self.history:`), else move
the cursor by `n`, failing with the index-out-of-range RoboError when the
new cursor leaves `[0, len(states))`.  The states are never mutated. -/
def traverse {α : Type} (histFlag : Bool) (h : HistState α) (n : Int) :
    Except RoboErr (HistState α) :=
  if histFlag = false then .error .historyDisabled
  else
    let cursor := h.cursor + n
    if (h.states.length : Int) ≤ cursor ∨ cursor < 0 then .error .indexOutOfRange
    else .ok { h with cursor := cursor }

/-- The `state` property (lines 244-251): `NoStateError` when the cursor is
`-1`, the state at the cursor otherwise, with an `IndexError` surfacing as
the index-out-of-range RoboError. -/
def current {α : Type} (h : HistState α) : Except RoboErr α :=
  if h.cursor = -1 then .error .noState
  else
    match pyIndex h.states h.cursor with
    | some s => .ok s
    | none => .error .indexOutOfRange

/-- `back(n)` (lines 369-375): `_traverse(-1 * n)`. -/
def back {α : Type} (histFlag : Bool) (h : HistState α) (n : Int) :
    Except RoboErr (HistState α) :=
  traverse histFlag h (-1 * n)

/-- `forward(n)` (lines 377-383): `_traverse(n)`. -/
def forward {α : Type} (histFlag : Bool) (h : HistState α) (n : Int) :
    Except RoboErr (HistState α) :=
  traverse histFlag h n

end History

/-- The constructor's `history` argument (lines 220-229): `True` (unbounded),
a falsy value (tracking disabled), or an integer depth. -/
inductive HistoryArg
  | tru
  | falsy
  | bounded (n : Nat)
deriving DecidableEq, Repr

/-- Python truthiness of the stored `self.history`, tested by `_traverse`. -/
def histTruthy : HistoryArg → Bool
  | .tru => true
  | .falsy => false
  | .bounded n => n != 0

/-- `self._maxlen` as configured by `__init__` (lines 222-227): `None` for
`True` (unbounded), `1` for a falsy argument, else the integer itself. -/
def maxlenOf : HistoryArg → Option Nat
  | .tru => none
  | .falsy => some 1
  | .bounded n => if n = 0 then some 1 else some n

/-! ## URL joining (external collaborator) -/

/-- Whether a character sequence contains the scheme separator `://`. -/
def hasSchemeSep : List Char → Bool
  | ':' :: '/' :: '/' :: _ => true
  | _ :: xs => hasSchemeSep xs
  | [] => false

/-- Whether a URL is absolute (carries a scheme separator). -/
def isAbsoluteUrl (url : String) : Bool :=
  hasSchemeSep url.toList

/-- Split a string on `/`. -/
def splitSlash (s : String) : List String :=
  ((s.toList.splitOn '/').map (fun l => String.mk l))

/-- Join strings with a separator (structural, kernel-evaluable). -/
def joinWith (sep : String) : List String → String
  | [] => ""
  | [x] => x
  | x :: y :: xs => x ++ sep ++ joinWith sep (y :: xs)

/-- Modelled from the spec: `urlparse.urljoin`, the external URL-joining
utility (spec section 1 places URL joining outside the core).  Minimal model:
an empty url yields the base; a url carrying a scheme separator is absolute
and passes through unchanged; otherwise the last path segment of the base is
replaced by the url. -/
def urljoin (base url : String) : String :=
  if url = "" then base
  else if isAbsoluteUrl url then url
  else joinWith "/" (splitSlash base).dropLast ++ "/" ++ url

/-! ## Browser façade (`RoboBrowser`) -/

/-- Modelled from the spec: the external Form collaborator (spec section 6),
consumed only through its `method` and `action` strings and its
serialization into a sequence of key/value pairs (`serialize(...)` then
`payload.to_requests(method)['data']`). -/
structure Form where
  method : String
  action : String
  data : List (String × String)
deriving DecidableEq, Repr

/-- Modelled from the spec: a link element, of which `follow_link` reads only
the optional `href` attribute. -/
structure Link where
  href : Option String
deriving DecidableEq, Repr

/-- The browser state (`RoboBrowser.__init__`, lines 203-229): the transport
session, the parser identifier, the raw `history` argument, and the history
fields `_states` / `_cursor`. -/
structure RoboBrowser where
  session : RoboCurl
  parser : Option String
  history : HistoryArg
  states : List RoboState
  cursor : Int
deriving DecidableEq, Repr

/-- `RoboBrowser.__init__` (lines 203-229): fresh empty history with cursor
`-1`.  (The user-agent/timeout/redirect options only mutate curl-handle
configuration and are not part of the modelled state.) -/
def RoboBrowser.init (sess : RoboCurl) (parserArg : Option String) (historyArg : HistoryArg) :
    RoboBrowser :=
  { session := sess, parser := parserArg, history := historyArg, states := [], cursor := -1 }

/-- The history portion of a browser. -/
def RoboBrowser.histState (b : RoboBrowser) : HistState RoboState :=
  { states := b.states, cursor := b.cursor }

/-- The `state` property (lines 244-251). -/
def RoboBrowser.state (b : RoboBrowser) : Except RoboErr RoboState :=
  History.current b.histState

/-- The `url` property (lines 257-259): the current state's URL. -/
def RoboBrowser.url (b : RoboBrowser) : Except RoboErr String :=
  (RoboBrowser.state b).map (fun st => st.url)

/-- `RoboBrowser._build_url` (lines 289-299): join the given full or partial
URL onto the current page's URL.  Propagates the no-state failure of the
`url` property. -/
def RoboBrowser._build_url (b : RoboBrowser) (url : String) : Except RoboErr String :=
  (RoboBrowser.url b).map (fun cur => urljoin cur url)

/-- `RoboBrowser._update_state` (lines 331-353): build a `RoboResponse` from
the session, wrap it in a `RoboState`, and push it onto the history with the
truncate/append/evict logic of `History.push`. -/
def RoboBrowser._update_state (b : RoboBrowser) : RoboBrowser :=
  let response := RoboResponse.ofSession b.session
  let st := RoboState.ofResponse response
  let h := History.push (maxlenOf b.history) b.histState st
  { b with states := h.states, cursor := h.cursor }

/-- `RoboBrowser.open` (lines 321-329) — named `openUrl` because `open` is a
Lean keyword.  Issues `session.get` with the given url passed through
unchanged (no `_build_url` call appears in `open`) and pushes the new state.
The first component is the request handed to the transport. -/
def RoboBrowser.openUrl (b : RoboBrowser) (url : String) (net : Net) :
    Request × Except PyErr RoboBrowser :=
  ({ verb := .get, url := url, data := [] },
   match RoboCurl.get b.session url [] net with
   | .error e => .error e
   | .ok s' => .ok (RoboBrowser._update_state { b with session := s' }))

/-- `RoboBrowser.follow_link` (lines 436-448): require the link's `href`
attribute (RoboError otherwise), resolve it with `_build_url`, and open the
resolved URL. -/
def RoboBrowser.follow_link (b : RoboBrowser) (link : Link) (net : Net) :
    Except PyErr (Request × RoboBrowser) :=
  match link.href with
  | none => .error (.robo .missingAttribute)
  | some href =>
    match RoboBrowser._build_url b href with
    | .error e => .error (.robo e)
    | .ok u =>
      let r := RoboBrowser.openUrl b u net
      match r.2 with
      | .error e => .error e
      | .ok b' => .ok (r.1, b')

/-- `RoboBrowser.submit_form` (lines 450-482): uppercase the form's method;
resolve the form action against the current URL, falling back to the current
URL when the join is empty (`or self.url`); serialize the form into a params
dict (later duplicate keys win, as in the dict comprehension of line 467);
dispatch through `session.post` exactly when the method is `"POST"` and
through `session.get` otherwise (the params dict then occupies `get`'s
headers parameter); push the new state.  Returns the issued request and the
updated browser. -/
def RoboBrowser.submit_form (b : RoboBrowser) (form : Form) (net : Net) :
    Except PyErr (Request × RoboBrowser) :=
  let method := pyUpper form.method
  match RoboBrowser.url b with
  | .error e => .error (.robo e)
  | .ok cur =>
    let url := pyOr (urljoin cur form.action) cur
    let params := form.data.foldl (fun d kv => dictSet d kv.1 kv.2) []
    let sess := { b.session with payload := Payload.plain [], hdr := "" }
    let res :=
      if method = "POST" then RoboCurl.post sess url params net
      else RoboCurl.get sess url params net
    let req : Request :=
      if method = "POST" then { verb := .post, url := url, data := params }
      else { verb := .get, url := url, data := params }
    match res with
    | .error e => .error e
    | .ok s' => .ok (req, RoboBrowser._update_state { b with session := s' })

/-- `RoboBrowser.back` (lines 369-375) at the browser level. -/
def RoboBrowser.back (b : RoboBrowser) (n : Int) : Except RoboErr RoboBrowser :=
  (History.back (histTruthy b.history) b.histState n).map
    (fun h => { b with states := h.states, cursor := h.cursor })

/-- `RoboBrowser.forward` (lines 377-383) at the browser level. -/
def RoboBrowser.forward (b : RoboBrowser) (n : Int) : Except RoboErr RoboBrowser :=
  (History.forward (histTruthy b.history) b.histState n).map
    (fun h => { b with states := h.states, cursor := h.cursor })

/-- One public navigation operation of the façade. -/
inductive BOp
  | openOp (url : String)
  | submitOp (form : Form)
  | backOp (n : Int)
  | forwardOp (n : Int)
deriving Repr

/-- Run one operation against the browser: a raised exception propagates to
the caller and leaves the browser state as the operation left it — `open` and
`submit_form` only mutate the history after a successful request, and a
failing `_traverse` does not move the cursor, so on every failure the
browser is unchanged. -/
def runBOp (net : Net) (b : RoboBrowser) (op : BOp) : RoboBrowser :=
  match op with
  | .openOp u =>
    match (RoboBrowser.openUrl b u net).2 with
    | .ok b' => b'
    | .error _ => b
  | .submitOp f =>
    match RoboBrowser.submit_form b f net with
    | .ok r => r.2
    | .error _ => b
  | .backOp n =>
    match RoboBrowser.back b n with
    | .ok b' => b'
    | .error _ => b
  | .forwardOp n =>
    match RoboBrowser.forward b n with
    | .ok b' => b'
    | .error _ => b

/-- The history invariants of spec section 3: the cursor stays in
`[-1, length)`, is `-1` exactly on an empty list, and a configured maximum
length bounds the list. -/
def InvH {α : Type} (maxlen : Option Nat) (h : HistState α) : Prop :=
  -1 ≤ h.cursor ∧ h.cursor < (h.states.length : Int)
  ∧ (h.cursor = -1 ↔ h.states = [])
  ∧ ∀ m, maxlen = some m → h.states.length ≤ m

/-- The history invariants, read off a browser. -/
def InvB (b : RoboBrowser) : Prop :=
  InvH (maxlenOf b.history) b.histState

/-! ## Claim-side definitions and concrete instances -/

/-- The entry a header line contributes to the dict, phrased as the claim
describes a line's processing: split on the first colon, lowercase the name,
trim the value; a line without a colon contributes nothing. -/
def headerEntry (line : String) : Option (String × String) :=
  if pyHasColon line then
    match pySplitColon1 line with
    | [name, value] => some (pyLower name, pyStrip value)
    | _ => none
  else none

/-- The header-map construction the claim describes: the first line is only
the status line, and the map is built from the subsequent lines alone. -/
def parse_headers_per_claim (headers : String) : String × List (String × String) :=
  let lines := pySplitCRLF headers
  (lines.headD "", (lines.drop 1).foldl hdrStep [])

/-- A network where every page is served plain (no content-encoding) and the
effective URL is the requested one. -/
def plainNet : Net := fun r =>
  { raw_hdr := "HTTP/1.1 200 OK", body := Payload.plain [], eff_url := r.url }

/-- The end-to-end scenario of the claim: open A, B, C, go back once, open D. -/
def c1ops : List BOp :=
  [.openOp "A", .openOp "B", .openOp "C", .backOp 1, .openOp "D"]

/-- The browser after running the scenario from a fresh unbounded-history
instance. -/
def c1final : RoboBrowser :=
  c1ops.foldl (runBOp plainNet) (RoboBrowser.init {} none .tru)

/-- A network that declares deflate content-encoding and serves a raw DEFLATE
body. -/
def c3net : Net := fun _ =>
  { raw_hdr := "HTTP/1.1 200 OK\r\nContent-Encoding: deflate",
    body := Payload.rawDeflate [3, 1, 4], eff_url := "http://x/y" }

/-- A fresh browser for the deflate witness. -/
def c3b : RoboBrowser := RoboBrowser.init {} none .tru

/-- A response located at a two-segment path, used as the current page. -/
def c4resp : RoboResponse :=
  { content := Payload.plain [], url := "http://example.com/a/b", status_line := "",
    headers := [] }

/-- A browser whose current page is `http://example.com/a/b`. -/
def c4b : RoboBrowser :=
  { session := {}, parser := none, history := .tru,
    states := [RoboState.ofResponse c4resp], cursor := 0 }

/-- A link with a relative href. -/
def c4link : Link := { href := some "d" }

/-- The result of following that link (defaulted; the witness proves the call
in fact succeeds with this value). -/
def c4flres : Request × RoboBrowser :=
  (RoboBrowser.follow_link c4b c4link plainNet).toOption.getD
    ({ verb := .get, url := "", data := [] }, c4b)

/-- A browser constructed with history tracking disabled. -/
def c5b : RoboBrowser := RoboBrowser.init {} none .falsy

/-- A network whose header block carries a status line and one header. -/
def c9net : Net := fun r =>
  { raw_hdr := "HTTP/1.1 200 OK\r\nA: b", body := Payload.plain [1, 2], eff_url := r.url }

/-- A fresh browser for the status-line witness. -/
def c9b : RoboBrowser := RoboBrowser.init {} none .tru

/-- The browser after the witness navigation (defaulted; the witness proves
the call in fact succeeds with this value). -/
def c9bAfter : RoboBrowser :=
  ((RoboBrowser.openUrl c9b "http://h/p" c9net).2).toOption.getD c9b

/-- A current page for the form-submission half of the status-line witness. -/
def c9resp : RoboResponse :=
  { content := Payload.plain [], url := "http://h/base/pg", status_line := "",
    headers := [] }

/-- A browser with a current page, for submitting the witness form. -/
def c9bSub : RoboBrowser :=
  { session := {}, parser := none, history := .tru,
    states := [RoboState.ofResponse c9resp], cursor := 0 }

/-- A POST form for the status-line witness. -/
def c9form : Form := { method := "POST", action := "s", data := [("k", "v")] }

/-- The result of the witness submission (defaulted; the witness proves the
call in fact succeeds with this value). -/
def c9subRes : Request × RoboBrowser :=
  (RoboBrowser.submit_form c9bSub c9form c9net).toOption.getD
    ({ verb := .get, url := "", data := [] }, c9bSub)

/-- A form whose method is neither GET nor POST. -/
def c10form : Form := { method := "pUt", action := "x", data := [("a", "1")] }

/-- A browser with a current page, for submitting the form. -/
def c10b : RoboBrowser :=
  { session := {}, parser := none, history := .tru,
    states := [RoboState.ofResponse c4resp], cursor := 0 }

/-- The result of the witness submission (defaulted; the witness proves the
call in fact succeeds with this value). -/
def c10res : Request × RoboBrowser :=
  (RoboBrowser.submit_form c10b c10form plainNet).toOption.getD
    ({ verb := .get, url := "", data := [] }, c10b)

/-! ## History lemmas -/

lemma pySliceTo_of_nonneg {α : Type} (l : List α) {k : Int} (hk : 0 ≤ k) :
    pySliceTo l k = l.take k.toNat := by
  rw [pySliceTo, if_neg (by omega)]

lemma pySliceFrom_of_nonneg {α : Type} (l : List α) {k : Int} (hk : 0 ≤ k) :
    pySliceFrom l k = l.drop k.toNat := by
  rw [pySliceFrom, if_neg (by omega)]

lemma getLast?_drop_concat {α : Type} (l : List α) (s : α) {k : Nat} (hk : k ≤ l.length) :
    ((l ++ [s]).drop k).getLast? = some s := by
  rw [List.drop_append_of_le_length hk, List.getLast?_concat]

lemma pyIndex_last {α : Type} (l : List α) (hl : l ≠ []) :
    pyIndex l ((l.length : Int) - 1) = l.getLast? := by
  have hp : 0 < l.length := List.length_pos.mpr hl
  rw [pyIndex, if_pos (by omega : (0 : Int) ≤ (l.length : Int) - 1)]
  have he : ((l.length : Int) - 1).toNat = l.length - 1 := by omega
  rw [he]
  exact (List.getLast?_eq_getElem? l).symm

lemma push_getLast {α : Type} (maxlen : Option Nat)
    (hm : ∀ m, maxlen = some m → 1 ≤ m) (h : HistState α) (s : α) :
    (History.push maxlen h s).states.getLast? = some s := by
  cases maxlen with
  | none => exact List.getLast?_concat _
  | some m =>
    have hm1 : 1 ≤ m := hm m rfl
    simp only [History.push]
    rw [if_neg (by omega : ¬ m = 0)]
    by_cases hdec :
        (0 : Int) < ((pySliceTo h.states (h.cursor + 1) ++ [s]).length : Int) - (m : Int)
    · rw [if_pos hdec]
      rw [pySliceFrom_of_nonneg _ (by omega)]
      refine getLast?_drop_concat _ s ?_
      simp only [List.length_append, List.length_singleton] at hdec ⊢
      omega
    · rw [if_neg hdec]
      exact List.getLast?_concat _

lemma push_len_pos {α : Type} (maxlen : Option Nat)
    (hm : ∀ m, maxlen = some m → 1 ≤ m) (h : HistState α) (s : α) :
    1 ≤ (History.push maxlen h s).states.length := by
  have hg := push_getLast maxlen hm h s
  have hne : (History.push maxlen h s).states ≠ [] := by
    intro he; rw [he] at hg; simp at hg
  exact List.length_pos.mpr hne

lemma push_dropForm {α : Type} (maxlen : Option Nat)
    (hm : ∀ m, maxlen = some m → 1 ≤ m) (h : HistState α) (s : α) :
    ∃ k : Nat,
      (History.push maxlen h s).states = (pySliceTo h.states (h.cursor + 1) ++ [s]).drop k
      ∧ (History.push maxlen h s).cursor = (h.cursor + 1) - (k : Int)
      ∧ (pySliceTo h.states (h.cursor + 1) ++ [s]).length
          = (History.push maxlen h s).states.length + k := by
  cases maxlen with
  | none =>
    refine ⟨0, by simp [History.push], by simp [History.push], by simp [History.push]⟩
  | some m =>
    have hm1 : 1 ≤ m := hm m rfl
    simp only [History.push]
    rw [if_neg (by omega : ¬ m = 0)]
    by_cases hdec :
        (0 : Int) < ((pySliceTo h.states (h.cursor + 1) ++ [s]).length : Int) - (m : Int)
    · rw [if_pos hdec]
      refine ⟨(((pySliceTo h.states (h.cursor + 1) ++ [s]).length : Int) - (m : Int)).toNat,
        ?_, ?_, ?_⟩
      · rw [pySliceFrom_of_nonneg _ (by omega)]
      · simp only; omega
      · rw [pySliceFrom_of_nonneg _ (by omega)]
        simp only [List.length_drop]
        omega
    · rw [if_neg hdec]
      exact ⟨0, rfl, by simp, by simp⟩

lemma push_cursor_last {α : Type} (maxlen : Option Nat)
    (hm : ∀ m, maxlen = some m → 1 ≤ m) (h : HistState α) (s : α)
    (h1 : -1 ≤ h.cursor) (h2 : h.cursor < (h.states.length : Int)) :
    (History.push maxlen h s).cursor = ((History.push maxlen h s).states.length : Int) - 1 := by
  obtain ⟨k, _, hcur, hlen⟩ := push_dropForm maxlen hm h s
  have hslice : pySliceTo h.states (h.cursor + 1) = h.states.take (h.cursor + 1).toNat :=
    pySliceTo_of_nonneg _ (by omega)
  have hlen_t : (pySliceTo h.states (h.cursor + 1)).length = (h.cursor + 1).toNat := by
    rw [hslice, List.length_take]; omega
  rw [hcur]
  rw [List.length_append, List.length_singleton, hlen_t] at hlen
  omega

lemma push_maxlen_bound {α : Type} (maxlen : Option Nat)
    (hm : ∀ m, maxlen = some m → 1 ≤ m) (h : HistState α) (s : α) :
    ∀ m, maxlen = some m → (History.push maxlen h s).states.length ≤ m := by
  intro m hmm
  subst hmm
  have hm1 : 1 ≤ m := hm m rfl
  simp only [History.push]
  rw [if_neg (by omega : ¬ m = 0)]
  by_cases hdec :
      (0 : Int) < ((pySliceTo h.states (h.cursor + 1) ++ [s]).length : Int) - (m : Int)
  · rw [if_pos hdec]
    rw [pySliceFrom_of_nonneg _ (by omega)]
    simp only [List.length_drop, List.length_append, List.length_singleton] at hdec ⊢
    omega
  · rw [if_neg hdec]
    simp only [List.length_append, List.length_singleton] at hdec ⊢
    omega

lemma push_inv {α : Type} {maxlen : Option Nat}
    (hm : ∀ m, maxlen = some m → 1 ≤ m) {h : HistState α} (s : α)
    (hi : InvH maxlen h) : InvH maxlen (History.push maxlen h s) := by
  obtain ⟨i1, i2, _, _⟩ := hi
  have hc := push_cursor_last maxlen hm h s i1 i2
  have hp := push_len_pos maxlen hm h s
  refine ⟨by omega, by omega, ?_, push_maxlen_bound maxlen hm h s⟩
  constructor
  · intro hq; exfalso; omega
  · intro hq; exfalso; rw [hq] at hp; simp at hp

lemma current_push {α : Type} (maxlen : Option Nat)
    (hm : ∀ m, maxlen = some m → 1 ≤ m) (h : HistState α) (s : α)
    (h1 : -1 ≤ h.cursor) (h2 : h.cursor < (h.states.length : Int)) :
    History.current (History.push maxlen h s) = .ok s := by
  have hc := push_cursor_last maxlen hm h s h1 h2
  have hp := push_len_pos maxlen hm h s
  have hg := push_getLast maxlen hm h s
  have hne : (History.push maxlen h s).states ≠ [] := by
    intro he; rw [he] at hp; simp at hp
  unfold History.current
  rw [if_neg (by omega), hc, pyIndex_last _ hne, hg]

lemma traverse_inv {α : Type} {maxlen : Option Nat} {flag : Bool}
    {h h' : HistState α} {n : Int}
    (ht : History.traverse flag h n = .ok h') (hi : InvH maxlen h) : InvH maxlen h' := by
  obtain ⟨_, _, _, i4⟩ := hi
  simp only [History.traverse] at ht
  split at ht
  · cases ht
  · split at ht
    · cases ht
    · rename_i hrange
      cases ht
      push_neg at hrange
      have hlen : 0 < h.states.length := by omega
      refine ⟨show -1 ≤ h.cursor + n by omega,
        show h.cursor + n < (h.states.length : Int) by omega,
        ⟨fun hq => ?_, fun hq => ?_⟩, i4⟩
      · exfalso
        have hq2 : h.cursor + n = -1 := hq
        omega
      · exfalso
        have hq2 : h.states = [] := hq
        rw [hq2] at hlen
        simp at hlen

lemma push_states_none {α : Type} (h : HistState α) (s : α) (h1 : -1 ≤ h.cursor) :
    (History.push none h s).states = h.states.take (h.cursor + 1).toNat ++ [s] := by
  simp only [History.push]
  rw [pySliceTo_of_nonneg _ (by omega)]

lemma traverse_true {α : Type} (h : HistState α) (n : Int) :
    History.traverse true h n =
      if (h.states.length : Int) ≤ h.cursor + n ∨ h.cursor + n < 0
      then .error .indexOutOfRange
      else .ok { states := h.states, cursor := h.cursor + n } :=
  rfl

lemma maxlenOf_pos (arg : HistoryArg) : ∀ m, maxlenOf arg = some m → 1 ≤ m := by
  intro m hm
  cases arg with
  | tru => cases hm
  | falsy => cases hm; exact Nat.le_refl 1
  | bounded n =>
    simp only [maxlenOf] at hm
    split at hm <;> (cases hm; omega)

/-! ## Shape lemmas for the façade operations -/

lemma do_request_ok_shape {s : RoboCurl} {req : Request} {net : Net} {s' : RoboCurl}
    (hd : RoboCurl._do_request s req net = .ok s') :
    s'.status_line = (RoboCurl.parse_headers (net req).raw_hdr).1
    ∧ s'.url = (net req).eff_url
    ∧ s'.headers = (RoboCurl.parse_headers (net req).raw_hdr).2 := by
  simp only [RoboCurl._do_request] at hd
  split at hd
  · split at hd
    · cases hd
    · split at hd
      · cases hd
      · cases hd
        exact ⟨rfl, rfl, rfl⟩
  · cases hd
    exact ⟨rfl, rfl, rfl⟩

lemma open_ok_shape {b : RoboBrowser} {u : String} {net : Net} {b' : RoboBrowser}
    (hs : (RoboBrowser.openUrl b u net).2 = .ok b') :
    ∃ s', RoboCurl.get b.session u [] net = .ok s'
      ∧ b' = RoboBrowser._update_state { b with session := s' } := by
  simp only [RoboBrowser.openUrl] at hs
  split at hs
  · cases hs
  · rename_i s' hg
    injection hs with hs
    exact ⟨s', hg, hs.symm⟩

lemma submit_ok_shape {b : RoboBrowser} {f : Form} {net : Net} {r : Request × RoboBrowser}
    (hs : RoboBrowser.submit_form b f net = .ok r) :
    ∃ s',
      RoboCurl._do_request { b.session with payload := Payload.plain [], hdr := "" } r.1 net
        = .ok s'
      ∧ r.2 = RoboBrowser._update_state { b with session := s' } := by
  simp only [RoboBrowser.submit_form] at hs
  split at hs
  · cases hs
  · split at hs
    · cases hs
    · rename_i s' hres
      injection hs with hs
      refine ⟨s', ?_, by rw [← hs]⟩
      rw [← hs]
      by_cases hp : pyUpper f.method = "POST"
      · simp only [if_pos hp] at hres ⊢
        exact hres
      · simp only [if_neg hp] at hres ⊢
        exact hres

lemma update_state_status_line (b : RoboBrowser) (s' : RoboCurl) :
    ((RoboBrowser._update_state { b with session := s' }).states.getLast?.map
        (fun st => st.response.status_line)) = some ""
    ∧ (RoboBrowser._update_state { b with session := s' }).session = s' := by
  constructor
  · rw [show (RoboBrowser._update_state { b with session := s' }).states
        = (History.push (maxlenOf b.history)
            ({ b with session := s' } : RoboBrowser).histState
            (RoboState.ofResponse (RoboResponse.ofSession s'))).states from rfl]
    rw [push_getLast (maxlenOf b.history) (maxlenOf_pos b.history) _ _]
    rfl
  · rfl

/-! ## Browser-level invariant preservation -/

lemma init_invB (sess : RoboCurl) (parserArg : Option String) (historyArg : HistoryArg) :
    InvB (RoboBrowser.init sess parserArg historyArg) := by
  refine ⟨le_refl _, ?_, ?_, fun m _ => Nat.zero_le m⟩
  · show (-1 : Int) < ((([] : List RoboState).length : Nat) : Int)
    simp
  · show (-1 : Int) = -1 ↔ ([] : List RoboState) = []
    simp

lemma update_state_invB {b : RoboBrowser} (hb : InvB b) :
    InvB (RoboBrowser._update_state b) :=
  push_inv (maxlenOf_pos b.history)
    (RoboState.ofResponse (RoboResponse.ofSession b.session)) hb

lemma runBOp_inv (net : Net) (op : BOp) {b : RoboBrowser} (hb : InvB b) :
    InvB (runBOp net b op) := by
  cases op with
  | openOp u =>
    simp only [runBOp]
    split
    · rename_i b' hs
      obtain ⟨s', _, hb'⟩ := open_ok_shape hs
      rw [hb']
      exact update_state_invB (show InvB { b with session := s' } from hb)
    · exact hb
  | submitOp f =>
    simp only [runBOp]
    split
    · rename_i r hs
      obtain ⟨s', _, hb'⟩ := submit_ok_shape hs
      rw [hb']
      exact update_state_invB (show InvB { b with session := s' } from hb)
    · exact hb
  | backOp n =>
    simp only [runBOp]
    split
    · rename_i b' hs
      simp only [RoboBrowser.back, History.back] at hs
      cases ht : History.traverse (histTruthy b.history) b.histState (-1 * n) with
      | error e => rw [ht] at hs; cases hs
      | ok h' =>
        rw [ht] at hs
        injection hs with hs
        rw [← hs]
        exact traverse_inv ht hb
    · exact hb
  | forwardOp n =>
    simp only [runBOp]
    split
    · rename_i b' hs
      simp only [RoboBrowser.forward, History.forward] at hs
      cases ht : History.traverse (histTruthy b.history) b.histState n with
      | error e => rw [ht] at hs; cases hs
      | ok h' =>
        rw [ht] at hs
        injection hs with hs
        rw [← hs]
        exact traverse_inv ht hb
    · exact hb

lemma runOps_inv (net : Net) (ops : List BOp) {b : RoboBrowser} (hb : InvB b) :
    InvB (ops.foldl (runBOp net) b) := by
  induction ops generalizing b with
  | nil => exact hb
  | cons op rest ih => exact ih (runBOp_inv net op hb)

/-! ## Header-parsing lemmas -/

lemma hdrStep_eq (d : List (String × String)) (line : String) :
    hdrStep d line =
      match headerEntry line with
      | some nv => dictSet d nv.1 nv.2
      | none => d := by
  simp only [hdrStep, headerEntry]
  by_cases hc : pyHasColon line
  · simp only [if_pos hc]
    cases hsp : pySplitColon1 line with
    | nil => rfl
    | cons a t =>
      cases t with
      | nil => rfl
      | cons b t2 =>
        cases t2 with
        | nil => rfl
        | cons c t3 => rfl
  · simp only [if_neg hc]

lemma dictGet?_dictSet_self (d : List (String × String)) (k v : String) :
    dictGet? (dictSet d k v) k = some v := by
  induction d with
  | nil => simp [dictSet, dictGet?]
  | cons p rest ih =>
    simp only [dictSet]
    by_cases hp : p.1 == k
    · rw [if_pos hp]
      simp [dictGet?]
    · rw [if_neg hp]
      simp only [dictGet?, hp]
      simpa using ih

lemma dictGet?_dictSet_ne (d : List (String × String)) {k k' : String} (hk : k ≠ k')
    (v : String) :
    dictGet? (dictSet d k v) k' = dictGet? d k' := by
  induction d with
  | nil => simp [dictSet, dictGet?, hk]
  | cons p rest ih =>
    simp only [dictSet]
    by_cases hp : p.1 == k
    · rw [if_pos hp]
      have hp1 : p.1 = k := by simpa using hp
      simp only [dictGet?]
      rw [if_neg (by simpa using hk), if_neg (by rw [hp1]; simpa using hk)]
    · rw [if_neg hp]
      simp only [dictGet?]
      by_cases hq : p.1 == k'
      · rw [if_pos hq, if_pos hq]
      · rw [if_neg hq, if_neg hq]
        exact ih

lemma find?_append_or {α : Type} (p : α → Bool) (l₁ l₂ : List α) :
    (l₁ ++ l₂).find? p = (l₁.find? p).or (l₂.find? p) :=
  List.find?_append

lemma dict_fold_get (lines : List String) (d0 : List (String × String)) (k : String) :
    dictGet? (lines.foldl hdrStep d0) k =
      match (lines.filterMap headerEntry).reverse.find? (fun q => q.1 == k) with
      | some q => some q.2
      | none => dictGet? d0 k := by
  induction lines generalizing d0 with
  | nil => rfl
  | cons line rest ih =>
    simp only [List.foldl_cons, List.filterMap_cons]
    rw [hdrStep_eq]
    cases he : headerEntry line with
    | none =>
      simp only []
      exact ih d0
    | some nv =>
      simp only [List.reverse_cons, find?_append_or]
      rw [ih]
      cases hf : (rest.filterMap headerEntry).reverse.find? (fun q => q.1 == k) with
      | some q => simp [Option.or]
      | none =>
        simp only [Option.none_or]
        by_cases hnk : nv.1 = k
        · rw [List.find?_cons_of_pos _ (by simp [hnk])]
          subst hnk
          exact dictGet?_dictSet_self d0 nv.1 nv.2
        · rw [List.find?_cons_of_neg _ (by simpa using hnk), List.find?_nil]
          exact dictGet?_dictSet_ne d0 hnk nv.2

/-! ## Lazy-parse lemmas -/

lemma parsed_cached {parser : Option String} {st : RoboState} {d : Soup}
    (hc : st._parsed = some d) : RoboState.parsed parser st = (st, d, 0) := by
  simp only [RoboState.parsed, hc]

lemma parsedIter_cached {parser : Option String} {st : RoboState} {d : Soup}
    (hc : st._parsed = some d) (k : Nat) : RoboState.parsedIter parser st k = (st, 0) := by
  induction k with
  | zero => rfl
  | succ k ih => simp only [RoboState.parsedIter, parsed_cached hc, ih]

/-! ## Claim theorems -/

/-- C1: every push (`_update_state`) onto a history with cursor `c` truncates
the states to `[0, c+1)`, appends the new state and puts the cursor on the
new last index (with no truncation loss when no maximum length is
configured); after opening A, B, C, going back to B and opening D the states
are `[A, B, D]` with the cursor on D and `forward()` fails with the
index-out-of-range error; and `current()` immediately after any push returns
the state just pushed, eviction included. -/
theorem C1_push_truncate :
    (∀ (arg : HistoryArg) (h : HistState String) (s : String),
      -1 ≤ h.cursor → h.cursor < (h.states.length : Int) →
        (maxlenOf arg = none →
          (History.push (maxlenOf arg) h s).states
            = h.states.take (h.cursor + 1).toNat ++ [s])
        ∧ (History.push (maxlenOf arg) h s).cursor
            = ((History.push (maxlenOf arg) h s).states.length : Int) - 1
        ∧ History.current (History.push (maxlenOf arg) h s) = .ok s)
    ∧ (c1final.states.map (fun st => st.url) = ["A", "B", "D"]
       ∧ c1final.cursor = 2
       ∧ (History.current c1final.histState).map (fun st => st.url) = .ok "D"
       ∧ RoboBrowser.forward c1final 1 = .error .indexOutOfRange) := by
  constructor
  · intro arg h s h1 h2
    refine ⟨?_, push_cursor_last _ (maxlenOf_pos arg) h s h1 h2,
      current_push _ (maxlenOf_pos arg) h s h1 h2⟩
    intro hnone
    rw [hnone]
    exact push_states_none h s h1
  · exact ⟨by decide, by decide, by decide, by decide⟩

/-- Witness for C1: a concrete push (with an eviction-triggering bound of 1)
satisfying the hypotheses of the universal part. -/
theorem C1_witness :
    ((-1 : Int) ≤ 0 ∧ (0 : Int) < ((["x"] : List String).length : Int))
    ∧ ((maxlenOf (.bounded 1) = none →
          (History.push (maxlenOf (.bounded 1)) (⟨["x"], 0⟩ : HistState String) "y").states
            = (["x"] : List String).take ((0 : Int) + 1).toNat ++ ["y"])
       ∧ (History.push (maxlenOf (.bounded 1)) (⟨["x"], 0⟩ : HistState String) "y").cursor
           = ((History.push (maxlenOf (.bounded 1))
                (⟨["x"], 0⟩ : HistState String) "y").states.length : Int) - 1
       ∧ History.current (History.push (maxlenOf (.bounded 1))
            (⟨["x"], 0⟩ : HistState String) "y") = .ok "y") :=
  ⟨⟨by decide, by decide⟩,
   C1_push_truncate.1 (.bounded 1) ⟨["x"], 0⟩ "y" (by decide) (by decide)⟩

/-- C2: for every browser instance (any history configuration, session and
parser) and every sequence of open / submit_form / back / forward
operations, the history invariants hold after the sequence: the cursor stays
in `[-1, length)` and is `-1` exactly on an empty state list, and a
configured maximum length bounds the list.  Moreover every push evicts only
from the front, by exactly the number of entries the bound forces, and
decrements the cursor by that number. -/
theorem C2_history_invariants :
    (∀ (arg : HistoryArg) (sess : RoboCurl) (parserArg : Option String) (net : Net)
        (ops : List BOp),
        InvB (ops.foldl (runBOp net) (RoboBrowser.init sess parserArg arg)))
    ∧ (∀ (arg : HistoryArg) (h : HistState RoboState) (s : RoboState),
        ∃ k : Nat,
          (History.push (maxlenOf arg) h s).states
            = (pySliceTo h.states (h.cursor + 1) ++ [s]).drop k
          ∧ (History.push (maxlenOf arg) h s).cursor = (h.cursor + 1) - (k : Int)
          ∧ (pySliceTo h.states (h.cursor + 1) ++ [s]).length
              = (History.push (maxlenOf arg) h s).states.length + k) := by
  constructor
  · intro arg sess parserArg net ops
    exact runOps_inv net ops (init_invB sess parserArg arg)
  · intro arg h s
    exact push_dropForm (maxlenOf arg) (maxlenOf_pos arg) h s

/-- C3: the code cannot decode any deflate-declared response — constructing
`DeflateDecoder` evaluates the undefined global `binary_type` and raises
`NameError`, so `open` fails on every response whose parsed headers declare
`content-encoding: deflate`.  The intended decoder (with `binary_type`
defined as `bytes`), as the claim and the spec describe it, would recover
the plaintext of a raw DEFLATE stream through the raw-inflate fallback and
decode a zlib-wrapped stream on the first attempt without the fallback. -/
theorem C3_deflate_decoder :
    (∀ (b : RoboBrowser) (url : String) (net : Net),
        dictGetD (RoboCurl.parse_headers
            (net { verb := .get, url := url, data := [] }).raw_hdr).2 "content-encoding" ""
          = "deflate" →
        (RoboBrowser.openUrl b url net).2 = .error .nameError)
    ∧ (∀ d : List Nat, deflateDecompressOnce (.rawDeflate d) = .ok (d, true))
    ∧ (∀ d : List Nat, deflateDecompressOnce (.zlibWrapped d) = .ok (d, false)) := by
  refine ⟨?_, fun d => rfl, fun d => rfl⟩
  intro b url net henc
  simp only [RoboBrowser.openUrl, RoboCurl.get, RoboCurl._do_request, henc]
  norm_num
  rfl

/-- Witness for C3: a concrete network declaring deflate, on which `open`
raises `NameError`. -/
theorem C3_witness :
    dictGetD (RoboCurl.parse_headers
        (c3net { verb := .get, url := "http://x/y", data := [] }).raw_hdr).2
        "content-encoding" "" = "deflate"
    ∧ (RoboBrowser.openUrl c3b "http://x/y" c3net).2 = .error .nameError :=
  ⟨by decide, C3_deflate_decoder.1 c3b "http://x/y" c3net (by decide)⟩

/-- C4 counterexample: on a browser whose current page is
`http://example.com/a/b`, `open("c")` hands the transport the relative url
`"c"` unchanged, although `_build_url` would resolve it to
`http://example.com/a/c` — so a relative url is not resolved against the
current page's URL before the request is issued, contradicting the claim at
this input. -/
theorem C4_cex :
    isAbsoluteUrl "c" = false
    ∧ RoboBrowser.url c4b = .ok "http://example.com/a/b"
    ∧ RoboBrowser._build_url c4b "c" = .ok "http://example.com/a/c"
    ∧ (RoboBrowser.openUrl c4b "c" plainNet).1.url = "c"
    ∧ ("c" : String) ≠ "http://example.com/a/c" := by
  refine ⟨by decide, by decide, by decide, by decide, by decide⟩

/-- C4 amended: `open(url)` passes its url to the transport unchanged,
whether relative or absolute; no resolution against the current page's URL
happens inside `open`.  Resolution happens in the callers that use
`_build_url`: `follow_link` opens the href joined onto the current page's
URL. -/
theorem C4_open_passthrough :
    (∀ (b : RoboBrowser) (url : String) (net : Net),
        (RoboBrowser.openUrl b url net).1 = { verb := .get, url := url, data := [] })
    ∧ (∀ (b : RoboBrowser) (link : Link) (net : Net) (href cur : String)
          (r : Request × RoboBrowser),
        link.href = some href → RoboBrowser.url b = .ok cur →
        RoboBrowser.follow_link b link net = .ok r →
        r.1.url = urljoin cur href) := by
  constructor
  · intro b url net
    rfl
  · intro b link net href cur r hhref hurl hfl
    simp only [RoboBrowser.follow_link, hhref] at hfl
    have hbu : RoboBrowser._build_url b href = .ok (urljoin cur href) := by
      simp only [RoboBrowser._build_url, hurl, Except.map]
    rw [hbu] at hfl
    simp only [RoboBrowser.openUrl] at hfl
    split at hfl
    · cases hfl
    · injection hfl with hfl
      rw [← hfl]

/-- Witness for C4: following a concrete relative link from
`http://example.com/a/b` issues a request for the joined URL. -/
theorem C4_witness :
    c4link.href = some "d"
    ∧ RoboBrowser.url c4b = .ok "http://example.com/a/b"
    ∧ RoboBrowser.follow_link c4b c4link plainNet = .ok c4flres
    ∧ c4flres.1.url = urljoin "http://example.com/a/b" "d" :=
  ⟨rfl, by decide, by decide,
   C4_open_passthrough.2 c4b c4link plainNet "d" "http://example.com/a/b" c4flres rfl
     (by decide) (by decide)⟩

/-- C5: on a browser whose history tracking is turned off (falsy `history`
argument, effective depth 1), every `back(n)` and every `forward(n)` fails
with the history-disabled error, whatever the current history contents. -/
theorem C5_disabled_history :
    ∀ (b : RoboBrowser) (n : Int), histTruthy b.history = false →
      RoboBrowser.back b n = .error .historyDisabled
      ∧ RoboBrowser.forward b n = .error .historyDisabled := by
  intro b n hb
  constructor
  · simp only [RoboBrowser.back, History.back, History.traverse, hb]
    rfl
  · simp only [RoboBrowser.forward, History.forward, History.traverse, hb]
    rfl

/-- Witness for C5: a browser constructed with falsy history. -/
theorem C5_witness :
    histTruthy c5b.history = false
    ∧ (RoboBrowser.back c5b 1 = .error .historyDisabled
       ∧ RoboBrowser.forward c5b 1 = .error .historyDisabled) :=
  ⟨by decide, C5_disabled_history c5b 1 (by decide)⟩

/-- C6: with history tracking enabled, a cursor move by `delta` fails with
the index-out-of-range error exactly when `cursor + delta` lies outside
`[0, length(states))`, and otherwise succeeds, setting the cursor to
`cursor + delta` and leaving the states untouched; `back(n)` is the move by
`-n` and `forward(n)` the move by `n`; in particular `back()` at cursor 0
and `forward()` at cursor `length - 1` both fail with the
index-out-of-range error. -/
theorem C6_traverse_bounds :
    ∀ (h : HistState String) (delta n : Int) (sts : List String),
      (History.traverse true h delta = .error .indexOutOfRange
        ↔ (h.cursor + delta < 0 ∨ (h.states.length : Int) ≤ h.cursor + delta))
      ∧ (History.traverse true h delta
            = .ok { states := h.states, cursor := h.cursor + delta }
        ↔ (0 ≤ h.cursor + delta ∧ h.cursor + delta < (h.states.length : Int)))
      ∧ History.back true h n = History.traverse true h (-1 * n)
      ∧ History.forward true h n = History.traverse true h n
      ∧ History.back true { states := sts, cursor := 0 } 1 = .error .indexOutOfRange
      ∧ History.forward true { states := sts, cursor := (sts.length : Int) - 1 } 1
          = .error .indexOutOfRange := by
  intro h delta n sts
  refine ⟨?_, ?_, rfl, rfl, ?_, ?_⟩
  · rw [traverse_true]
    by_cases hc : (h.states.length : Int) ≤ h.cursor + delta ∨ h.cursor + delta < 0
    · rw [if_pos hc]
      exact ⟨fun _ => by omega, fun _ => rfl⟩
    · rw [if_neg hc]
      push_neg at hc
      constructor
      · intro hq
        cases hq
      · intro hq
        exfalso
        rcases hq with hq | hq <;> omega
  · rw [traverse_true]
    by_cases hc : (h.states.length : Int) ≤ h.cursor + delta ∨ h.cursor + delta < 0
    · rw [if_pos hc]
      constructor
      · intro hq
        cases hq
      · intro hq
        exfalso
        rcases hc with hc | hc <;> omega
    · rw [if_neg hc]
      push_neg at hc
      exact ⟨fun _ => by omega, fun _ => rfl⟩
  · rw [History.back, traverse_true,
      if_pos (Or.inr (show (0 : Int) + -1 * 1 < 0 by norm_num))]
  · rw [History.forward, traverse_true,
      if_pos (Or.inl (show (sts.length : Int) ≤ ((sts.length : Int) - 1) + 1 by omega))]

/-- C7: on a freshly constructed page state, the first access of the
`parsed` property performs exactly one parse of `response.content` with the
configured parser identifier and caches the handle; every further access
returns the cached handle with no parse; over any positive number of
accesses the total number of parser invocations is exactly one; and the
response is never mutated. -/
theorem C7_lazy_parse :
    ∀ (parser : Option String) (resp : RoboResponse) (k : Nat),
      (RoboState.parsed parser (RoboState.ofResponse resp)).2.1
          = BeautifulSoup resp.content parser
      ∧ (RoboState.parsed parser (RoboState.ofResponse resp)).2.2 = 1
      ∧ (RoboState.parsed parser (RoboState.ofResponse resp)).1._parsed
          = some (BeautifulSoup resp.content parser)
      ∧ RoboState.parsed parser (RoboState.parsed parser (RoboState.ofResponse resp)).1
          = ((RoboState.parsed parser (RoboState.ofResponse resp)).1,
             BeautifulSoup resp.content parser, 0)
      ∧ (RoboState.parsedIter parser (RoboState.ofResponse resp) (k + 1)).2 = 1
      ∧ (RoboState.parsedIter parser (RoboState.ofResponse resp) (k + 1)).1.response
          = resp := by
  intro parser resp k
  have hcache : (RoboState.parsed parser (RoboState.ofResponse resp)).1._parsed
      = some (BeautifulSoup resp.content parser) := rfl
  refine ⟨rfl, rfl, rfl, parsed_cached hcache, ?_, ?_⟩
  · simp only [RoboState.parsedIter, parsedIter_cached hcache k]
    rfl
  · simp only [RoboState.parsedIter, parsedIter_cached hcache k]
    rfl

/-- C8 counterexample: on the header block whose first line contains a
colon, `parse_headers` also enters the first line into the map (key
`x-first`), while the map the claim describes — built from the subsequent
lines only — has no such entry; so the claim that only the lines after the
status line are split into the map fails at this input. -/
theorem C8_cex :
    dictGet? (RoboCurl.parse_headers "X-First: odd\r\nfoo: Bar").2 "x-first" = some "odd"
    ∧ dictGet? (parse_headers_per_claim "X-First: odd\r\nfoo: Bar").2 "x-first" = none
    ∧ RoboCurl.parse_headers "X-First: odd\r\nfoo: Bar"
        ≠ parse_headers_per_claim "X-First: odd\r\nfoo: Bar" := by
  refine ⟨by decide, by decide, by decide⟩

/-- C8 amended: `parse_headers` splits the block on CRLF, records the first
line as the status line but still processes every line — the first
included — like the rest: a line without a colon is skipped, any other line
is split on its first colon into a lowercased name and a trimmed value, and
a later duplicate name overwrites an earlier one; the lookup of any key in
the resulting map is the entry of the last line carrying that name, and the
parse never fails. -/
theorem C8_parse_headers :
    ∀ (s k : String),
      dictGet? (RoboCurl.parse_headers s).2 k
          = (((pySplitCRLF s).filterMap headerEntry).reverse.find? (fun q => q.1 == k)).map
              (fun q => q.2)
      ∧ (RoboCurl.parse_headers s).1 = (pySplitCRLF s).headD "" := by
  intro s k
  refine ⟨?_, rfl⟩
  rw [show (RoboCurl.parse_headers s).2 = (pySplitCRLF s).foldl hdrStep [] from rfl]
  rw [dict_fold_get]
  cases hf : ((pySplitCRLF s).filterMap headerEntry).reverse.find? (fun q => q.1 == k) with
  | some q => rfl
  | none => rfl

/-- C9: whenever a navigation succeeds — `open` or `submit_form` — the
`RoboResponse` stored in the new page state carries the empty string as its
`status_line` (line 155 assigns `""` instead of the session's captured
value), while the real status line — the first line of the raw header block
of the request actually issued — is retained only on the transport
session. -/
theorem C9_response_status_line :
    (∀ (b : RoboBrowser) (url : String) (net : Net) (b' : RoboBrowser),
      (RoboBrowser.openUrl b url net).2 = .ok b' →
      (b'.states.getLast?.map (fun st => st.response.status_line)) = some ""
      ∧ b'.session.status_line
          = (pySplitCRLF (net { verb := .get, url := url, data := [] }).raw_hdr).headD "")
    ∧ (∀ (b : RoboBrowser) (form : Form) (net : Net) (r : Request × RoboBrowser),
      RoboBrowser.submit_form b form net = .ok r →
      (r.2.states.getLast?.map (fun st => st.response.status_line)) = some ""
      ∧ r.2.session.status_line = (pySplitCRLF (net r.1).raw_hdr).headD "") := by
  constructor
  · intro b url net b' hok
    obtain ⟨s', hget, hshape⟩ := open_ok_shape hok
    have hdo := do_request_ok_shape hget
    have hupd := update_state_status_line b s'
    refine ⟨by rw [hshape]; exact hupd.1, ?_⟩
    rw [hshape, hupd.2, hdo.1]
    rfl
  · intro b form net r hok
    obtain ⟨s', hreq, hshape⟩ := submit_ok_shape hok
    have hdo := do_request_ok_shape hreq
    have hupd := update_state_status_line b s'
    refine ⟨by rw [hshape]; exact hupd.1, ?_⟩
    rw [hshape, hupd.2, hdo.1]
    rfl

/-- Witness for C9: two concrete successful navigations — an `open` and a
POST `submit_form` — whose wire status lines are nonempty; both response
snapshots still record the empty string while the session keeps the real
line. -/
theorem C9_witness :
    ((RoboBrowser.openUrl c9b "http://h/p" c9net).2 = .ok c9bAfter
     ∧ ((c9bAfter.states.getLast?.map (fun st => st.response.status_line)) = some ""
        ∧ c9bAfter.session.status_line
            = (pySplitCRLF
                (c9net { verb := .get, url := "http://h/p", data := [] }).raw_hdr).headD ""))
    ∧ (RoboBrowser.submit_form c9bSub c9form c9net = .ok c9subRes
       ∧ ((c9subRes.2.states.getLast?.map (fun st => st.response.status_line)) = some ""
          ∧ c9subRes.2.session.status_line
              = (pySplitCRLF (c9net c9subRes.1).raw_hdr).headD "")) :=
  ⟨⟨by decide, C9_response_status_line.1 c9b "http://h/p" c9net c9bAfter (by decide)⟩,
   ⟨by decide, C9_response_status_line.2 c9bSub c9form c9net c9subRes (by decide)⟩⟩

/-- C10: a successful `submit_form` dispatches through the transport's POST
operation exactly when the form's uppercased method equals `"POST"`, and
through the transport's GET operation for every other method value. -/
theorem C10_submit_dispatch :
    ∀ (b : RoboBrowser) (form : Form) (net : Net) (r : Request × RoboBrowser),
      RoboBrowser.submit_form b form net = .ok r →
      (r.1.verb = .post ↔ pyUpper form.method = "POST")
      ∧ (r.1.verb = .get ↔ pyUpper form.method ≠ "POST") := by
  intro b form net r hok
  simp only [RoboBrowser.submit_form] at hok
  split at hok
  · cases hok
  · split at hok
    · cases hok
    · injection hok with hok
      rw [← hok]
      by_cases hp : pyUpper form.method = "POST"
      · simp [hp]
      · simp [hp]

/-- Witness for C10: a form with method `"pUt"` is dispatched through the
transport's GET operation. -/
theorem C10_witness :
    RoboBrowser.submit_form c10b c10form plainNet = .ok c10res
    ∧ ((c10res.1.verb = .post ↔ pyUpper c10form.method = "POST")
       ∧ (c10res.1.verb = .get ↔ pyUpper c10form.method ≠ "POST")) :=
  ⟨by decide, C10_submit_dispatch c10b c10form plainNet c10res (by decide)⟩

end Robo
